import Mathlib

/-!
# Verification of the lotería card-sheet generator

Shallow embedding of the lotería generator (`loteria_core.py`,
`generar_loteria.py`).  Images are abstracted by an arbitrary type `α`
(in the program they are file paths); page rasters are abstracted by a
`Page` value recording which images, title and folio/page number each
page was built from.  Text is modelled as `List Char`, text measurement
(`draw.textbbox`) as an arbitrary function `measure : List Char → Int`,
and the injected randomness (`random.sample`) as a `sampler` function
together with the documented contract of `random.sample`.
-/

namespace Loteria

/-! ## Layout constants (`loteria_core.py`, lines 17-44) -/

def GRID_SIZE : Nat := 4
def IMAGES_PER_CARD : Nat := GRID_SIZE * GRID_SIZE
def PAGE_WIDTH : Nat := 2550
def PAGE_HEIGHT : Nat := 3300
def TITLE_HEIGHT : Nat := 200
def FOLIO_HEIGHT : Nat := 80
def MARGIN_TOP : Nat := 100
def MARGIN_BOTTOM : Nat := 100
def MARGIN_LEFT : Nat := 150
def MARGIN_RIGHT : Nat := 150
def GAP_BETWEEN_IMAGES : Nat := 15
def LABEL_PADDING_BOTTOM : Nat := 35
def LABEL_OUTLINE_WIDTH : Nat := 2

/-! ## Grid geometry

`create_card_image` (lines 202-208) and `create_deck_page`
(lines 347-353) each compute the available area and divide it into a
4x4 grid of cells.  Both use the same formula
`(available - (GRID_SIZE - 1) * GAP_BETWEEN_IMAGES) // GRID_SIZE`,
but the available heights differ: the card page subtracts the title
and folio bands, the deck page does not. -/

/-- The shared cell-size formula
`(available - (GRID_SIZE - 1) * GAP_BETWEEN_IMAGES) // GRID_SIZE`. -/
def cell_dim (available : Nat) : Nat :=
  (available - (GRID_SIZE - 1) * GAP_BETWEEN_IMAGES) / GRID_SIZE

/-- `create_card_image` line 203: `PAGE_WIDTH - MARGIN_LEFT - MARGIN_RIGHT`. -/
def card_available_width : Nat := PAGE_WIDTH - MARGIN_LEFT - MARGIN_RIGHT

/-- `create_card_image` line 204:
`PAGE_HEIGHT - TITLE_HEIGHT - MARGIN_TOP - MARGIN_BOTTOM - FOLIO_HEIGHT`. -/
def card_available_height : Nat :=
  PAGE_HEIGHT - TITLE_HEIGHT - MARGIN_TOP - MARGIN_BOTTOM - FOLIO_HEIGHT

/-- `create_card_image` line 207. -/
def card_cell_width : Nat :=
  (card_available_width - (GRID_SIZE - 1) * GAP_BETWEEN_IMAGES) / GRID_SIZE

/-- `create_card_image` line 208. -/
def card_cell_height : Nat :=
  (card_available_height - (GRID_SIZE - 1) * GAP_BETWEEN_IMAGES) / GRID_SIZE

/-- `create_deck_page` line 348: `PAGE_WIDTH - MARGIN_LEFT - MARGIN_RIGHT`. -/
def deck_available_width : Nat := PAGE_WIDTH - MARGIN_LEFT - MARGIN_RIGHT

/-- `create_deck_page` line 349: `PAGE_HEIGHT - MARGIN_TOP - MARGIN_BOTTOM`
(no title band, no folio band). -/
def deck_available_height : Nat := PAGE_HEIGHT - MARGIN_TOP - MARGIN_BOTTOM

/-- `create_deck_page` line 352. -/
def deck_cell_width : Nat :=
  (deck_available_width - (GRID_SIZE - 1) * GAP_BETWEEN_IMAGES) / GRID_SIZE

/-- `create_deck_page` line 353. -/
def deck_cell_height : Nat :=
  (deck_available_height - (GRID_SIZE - 1) * GAP_BETWEEN_IMAGES) / GRID_SIZE

/-! ## Deck-page cell placement (`create_deck_page`, lines 371-377)

The loop `for idx, img_path in enumerate(image_paths)` breaks as soon
as `idx >= 16` and places entry `idx` at row `idx // GRID_SIZE`,
column `idx % GRID_SIZE`.  We record, for each processed entry, the
`(row, col, image)` triple. -/

/-- The placement loop of `create_deck_page`: `idx` is the running
`enumerate` index; the loop stops at `idx >= 16` (`break`). -/
def deck_placements_loop {α : Type} : Nat → List α → List (Nat × Nat × α)
  | _, [] => []
  | idx, img_path :: rest =>
    if 16 ≤ idx then []
    else (idx / GRID_SIZE, idx % GRID_SIZE, img_path) ::
      deck_placements_loop (idx + 1) rest

/-- The `(row, col, image)` placements produced by `create_deck_page`
for a given input list. -/
def create_deck_page_placements {α : Type} (image_paths : List α) :
    List (Nat × Nat × α) :=
  deck_placements_loop 0 image_paths

/-! ## Deck pagination and card sampling inside `generate_loteria_pdf`
(lines 530-561) -/

/-- Abstract page: records the inputs each rendered page was built from.
`deck images page_number` stands for a deck page
(`create_deck_page(page_images, label_font_size, page_num + 1)`),
`card images title folio` for a card page
(`create_card_image(selected_images, nombre_loteria, i, label_font_size)`). -/
inductive Page (α : Type) where
  | deck (images : List α) (page_number : Nat)
  | card (images : List α) (title : String) (folio : Nat)
  deriving DecidableEq, Repr

/-- `generate_loteria_pdf` line 532:
`num_deck_pages = (len(all_images) + 15) // 16`. -/
def num_deck_pages (num_images : Nat) : Nat := (num_images + 15) / 16

/-- `generate_loteria_pdf` lines 535-537:
`start_idx = page_num * 16; end_idx = min(start_idx + 16, len(all_images));`
`page_images = all_images[start_idx:end_idx]`. -/
def deck_page_images {α : Type} (all_images : List α) (page_num : Nat) :
    List α :=
  let start_idx := page_num * 16
  let end_idx := min (start_idx + 16) all_images.length
  (all_images.drop start_idx).take (end_idx - start_idx)

/-- The deck section of `generate_loteria_pdf` (lines 531-545): one deck
page per chunk, appended in order of `page_num`. -/
def deck_pages {α : Type} (all_images : List α) : List (Page α) :=
  (List.range (num_deck_pages all_images.length)).foldl
    (fun acc page_num =>
      acc ++ [Page.deck (deck_page_images all_images page_num) (page_num + 1)])
    []

/-- The deck paginator viewed on its own (spec section 4.4):
the ordered sequence of image chunks shown on deck pages. -/
def paginate {α : Type} (pool : List α) : List (List α) :=
  (List.range (num_deck_pages pool.length)).map (deck_page_images pool)

/-- The card loop of `generate_loteria_pdf` (lines 548-558):
`for i in range(1, cantidad_tablas + 1)` draws
`random.sample(all_images, IMAGES_PER_CARD)` (modelled by `sampler i`)
and appends one card page with folio `i` to the accumulated page list
`init`.  A Python `range(1, n + 1)` over an `int` `n` is
`List.range' 1 n.toNat`. -/
def sample_cards_loop {α : Type} (cantidad_tablas : Int)
    (nombre_loteria : String) (sampler : Nat → List α)
    (init : List (Page α)) : List (Page α) :=
  (List.range' 1 cantidad_tablas.toNat).foldl
    (fun acc i => acc ++ [Page.card (sampler i) nombre_loteria i]) init

/-- Modelled from the spec (section 4.6) and the behaviour of the external
library call `img2pdf.convert(all_page_paths)` (line 561), which is not
part of this repository: it fails on an empty page list and otherwise
produces the document containing exactly the given pages in the given
order. -/
def img2pdf_convert {α : Type} (pages : List (Page α)) :
    Except String (List (Page α)) :=
  if pages.isEmpty then Except.error "img2pdf: no images" else Except.ok pages

/-- `generate_loteria_pdf(uploaded_files, cantidad_tablas, nombre_loteria,
label_font_size, include_deck)` (lines 499-574).  The pool `all_images`
is the list of image identifiers produced by `load_images_from_uploads`;
`sampler i` stands for the value of `random.sample(all_images, 16)`
drawn for card `i`.  The only validation in the function body is the
pool-size check at lines 521-524; there is no check on
`cantidad_tablas`. -/
def generate_loteria_pdf {α : Type} (all_images : List α)
    (cantidad_tablas : Int) (nombre_loteria : String)
    (include_deck : Bool) (sampler : Nat → List α) :
    Except String (List (Page α)) :=
  if all_images.length < IMAGES_PER_CARD then
    Except.error "Se necesitan al menos 16 imagenes."
  else
    let deckPaths := if include_deck then deck_pages all_images else []
    let all_page_paths :=
      sample_cards_loop cantidad_tablas nombre_loteria sampler deckPaths
    img2pdf_convert all_page_paths

/-- The folio number printed on a card page (`Tabla #{folio:02d}`);
`0` for deck pages, which carry no folio. -/
def card_folio {α : Type} : Page α → Nat
  | Page.deck _ _ => 0
  | Page.card _ _ folio => folio

/-- The validation at `generar_loteria.py` lines 378-381: the CLI entry
point `main` exits with an error (`sys.exit(1)`) when
`cantidad_tablas <= 0`, before any image is loaded. -/
def cli_validate_cantidad (cantidad_tablas : Int) : Except String Unit :=
  if cantidad_tablas ≤ 0 then
    Except.error "La cantidad de tablas debe ser mayor a 0"
  else Except.ok ()

/-- Documented contract of the Python standard-library call
`random.sample(pool, 16)` (not part of this repository): a list of 16
elements chosen from the population without replacement, hence pairwise
distinct for a duplicate-free pool of file paths. -/
def random_sample_spec {α : Type} (pool : List α) (s : List α) : Prop :=
  s.length = 16 ∧ s.Nodup ∧ ∀ x ∈ s, x ∈ pool

instance {α : Type} [DecidableEq α] (pool s : List α) :
    Decidable (random_sample_spec pool s) := by
  unfold random_sample_spec; infer_instance

/-! ## Text wrapping (`wrap_text`, lines 108-154)

Python strings are modelled as `List Char`; the text measurement
`draw.textbbox((0, 0), s, font=font)[2] - draw.textbbox(...)[0]` is an
arbitrary function `measure : List Char → Int` (one fixed font and draw
object correspond to one fixed `measure`). -/

/-- Helper for `splitWords`: Python `str.split()` scans the characters,
accumulating the current word (`acc`, in reverse) and emitting it at
each whitespace run and at the end.  Runs of whitespace produce no
empty words. -/
def splitWordsAux : List Char → List Char → List (List Char)
  | acc, [] => if acc.isEmpty then [] else [acc.reverse]
  | acc, c :: rest =>
    if c.isWhitespace then
      if acc.isEmpty then splitWordsAux [] rest
      else acc.reverse :: splitWordsAux [] rest
    else splitWordsAux (c :: acc) rest

/-- `text.split()` (line 129): split on whitespace runs, no empty words. -/
def splitWords (s : List Char) : List (List Char) := splitWordsAux [] s

/-- `' '.join(words)` (lines 135, 144, 152). -/
def joinWords : List (List Char) → List Char
  | [] => []
  | [w] => w
  | w :: w2 :: rest => w ++ ' ' :: joinWords (w2 :: rest)

/-- The word loop of `wrap_text` (lines 133-152), including the final
`if current_line: lines.append(' '.join(current_line))`.  The first
list argument is the remaining words, the second is `current_line`.
Lines are emitted in the order Python appends them to `lines`. -/
def wrap_loop (measure : List Char → Int) (max_width : Int) :
    List (List Char) → List (List Char) → List (List Char)
  | [], current_line =>
    if current_line.isEmpty then [] else [joinWords current_line]
  | word :: rest, current_line =>
    let test_line := joinWords (current_line ++ [word])
    if measure test_line ≤ max_width then
      wrap_loop measure max_width rest (current_line ++ [word])
    else if current_line.isEmpty then
      word :: wrap_loop measure max_width rest []
    else
      joinWords current_line :: wrap_loop measure max_width rest [word]

/-- `wrap_text(text, font, max_width, draw)` (lines 108-154): if the
whole text measures within `max_width` it is returned as a single line
(lines 122-126); otherwise the words are packed greedily. -/
def wrap_text (measure : List Char → Int) (text : List Char)
    (max_width : Int) : List (List Char) :=
  if measure text ≤ max_width then [text]
  else wrap_loop measure max_width (splitWords text) []

/-! ## Aspect-fit resizing (`resize_image_to_fit`, lines 51-80)

Python float arithmetic is modelled over `ℚ`; `int(x)` on the
non-negative products involved is `Int.floor`, and the Python floor
division `//` on possibly-negative offsets is `Int.fdiv`. -/

/-- A decoded raster: `image.width` and `image.height`. -/
structure PILImage where
  width : Nat
  height : Nat
  deriving DecidableEq, Repr

/-- The result of `resize_image_to_fit`: the scaled size, the paste
offsets within the background, and the background ("white canvas")
size. -/
structure FittedImage where
  new_width : Nat
  new_height : Nat
  offset_x : Int
  offset_y : Int
  bg_width : Nat
  bg_height : Nat
  deriving DecidableEq, Repr

/-- `resize_image_to_fit(image, target_width, target_height)`
(lines 51-80): `scale = min(target_width / image.width,
target_height / image.height)`; `new_width = int(image.width * scale)`;
`new_height = int(image.height * scale)`; white background of exactly
`target_width x target_height`; paste offsets
`(target_width - new_width) // 2, (target_height - new_height) // 2`. -/
def resize_image_to_fit (image : PILImage) (target_width target_height : Nat) :
    FittedImage :=
  let scale : ℚ := min ((target_width : ℚ) / (image.width : ℚ))
    ((target_height : ℚ) / (image.height : ℚ))
  let new_width : Nat := (⌊(image.width : ℚ) * scale⌋).toNat
  let new_height : Nat := (⌊(image.height : ℚ) * scale⌋).toNat
  { new_width := new_width
    new_height := new_height
    offset_x := Int.fdiv ((target_width : Int) - (new_width : Int)) 2
    offset_y := Int.fdiv ((target_height : Int) - (new_height : Int)) 2
    bg_width := target_width
    bg_height := target_height }

/-- A word as produced by `text.split()`: non-empty and free of
whitespace characters. -/
def IsWord (w : List Char) : Prop :=
  w ≠ [] ∧ ∀ c ∈ w, c.isWhitespace = false

/-! ## Helper lemmas -/

/-- A loop that appends one element per iteration builds `init ++ l.map f`. -/
theorem foldl_append_singleton {α β : Type} (f : β → α) (l : List β) :
    ∀ init : List α,
      l.foldl (fun acc x => acc ++ [f x]) init = init ++ l.map f := by
  induction l with
  | nil => intro init; simp
  | cons x l ih => intro init; simp [ih]

theorem deck_pages_eq {α : Type} (all_images : List α) :
    deck_pages all_images =
      (List.range (num_deck_pages all_images.length)).map
        (fun page_num =>
          Page.deck (deck_page_images all_images page_num) (page_num + 1)) := by
  unfold deck_pages
  rw [foldl_append_singleton]
  simp

theorem sample_cards_loop_eq {α : Type} (cantidad_tablas : Int)
    (nombre_loteria : String) (sampler : Nat → List α)
    (init : List (Page α)) :
    sample_cards_loop cantidad_tablas nombre_loteria sampler init =
      init ++ (List.range' 1 cantidad_tablas.toNat).map
        (fun i => Page.card (sampler i) nombre_loteria i) := by
  unfold sample_cards_loop
  rw [foldl_append_singleton]

/-- With a pool of at least 16 images and the deck enabled,
`generate_loteria_pdf` succeeds and its page list is the deck pages in
pagination order followed by the card pages in folio order. -/
theorem generate_ok_of_le_length {α : Type} (pool : List α)
    (cantidad_tablas : Int) (nombre_loteria : String)
    (sampler : Nat → List α) (h : 16 ≤ pool.length) :
    generate_loteria_pdf pool cantidad_tablas nombre_loteria true sampler =
      Except.ok
        ((List.range (num_deck_pages pool.length)).map
            (fun page_num =>
              Page.deck (deck_page_images pool page_num) (page_num + 1)) ++
          (List.range' 1 cantidad_tablas.toNat).map
            (fun i => Page.card (sampler i) nombre_loteria i)) := by
  have h16 : ¬ pool.length < IMAGES_PER_CARD := by
    simp only [IMAGES_PER_CARD, GRID_SIZE]
    omega
  rw [generate_loteria_pdf, if_neg h16]
  simp only [if_pos rfl]
  rw [sample_cards_loop_eq, deck_pages_eq]
  have hd : 1 ≤ num_deck_pages pool.length := by
    unfold num_deck_pages
    omega
  have hlen :
      1 ≤ ((List.range (num_deck_pages pool.length)).map
          (fun page_num =>
            Page.deck (deck_page_images pool page_num) (page_num + 1)) ++
        (List.range' 1 cantidad_tablas.toNat).map
          (fun i => Page.card (sampler i) nombre_loteria i)).length := by
    rw [List.length_append, List.length_map, List.length_range]
    omega
  rw [img2pdf_convert, if_neg]
  · simp
  · simp only [if_true, List.isEmpty_iff]
    intro habs
    rw [habs] at hlen
    simp at hlen

/-- The slice `all_images[page_num*16 : min(page_num*16+16, len)]` is
`take 16` of `drop (16 * page_num)`. -/
theorem deck_page_images_eq {α : Type} (pool : List α) (k : Nat) :
    deck_page_images pool k = (pool.drop (16 * k)).take 16 := by
  simp only [deck_page_images]
  rw [Nat.mul_comm 16 k, List.take_eq_take, List.length_drop]
  omega

/-- Joining the first `n` 16-chunks of a list yields its first `16 * n`
elements. -/
theorem flatten_chunks_eq_take {α : Type} (l : List α) (n : Nat) :
    ((List.range n).map (fun k => (l.drop (16 * k)).take 16)).flatten =
      l.take (16 * n) := by
  induction n with
  | zero => simp
  | succ n ih =>
    rw [List.range_succ, List.map_append, List.flatten_append]
    simp only [List.map_cons, List.map_nil, List.flatten_cons,
      List.flatten_nil, List.append_nil]
    rw [ih, Nat.mul_succ, List.take_add]

/-! ## Claim theorems -/

/-- C2 counterexample: the cell dimensions of card pages and deck pages
are NOT identical — the cell heights differ (card pages: 693 px, deck
pages: 763 px), because `create_card_image` subtracts the title and
folio bands from the available height while `create_deck_page` does
not. -/
theorem card_and_deck_cell_dims_differ :
    card_cell_height = 693 ∧ deck_cell_height = 763 ∧
      ¬(card_cell_width = deck_cell_width ∧
        card_cell_height = deck_cell_height) := by
  decide

/-- C2 amended: both page kinds derive their cell size from the shared
layout constants by the same formula `cell_dim`, and the cell widths are
identical (551 px); but the formula is applied to different available
heights (card pages reserve the title and folio bands), so the cell
heights differ: 693 px on card pages versus 763 px on deck pages. -/
theorem cell_dims_shared_formula_heights_differ :
    card_cell_width = cell_dim card_available_width ∧
      card_cell_height = cell_dim card_available_height ∧
      deck_cell_width = cell_dim deck_available_width ∧
      deck_cell_height = cell_dim deck_available_height ∧
      card_cell_width = deck_cell_width ∧
      card_cell_height ≠ deck_cell_height := by
  decide

/-- C4: for every pool with fewer than 16 images,
`generate_loteria_pdf` fails with the insufficient-images `ValueError`
raised at lines 521-524, before any page is rendered, and no document
is produced. -/
theorem generate_rejects_small_pool {α : Type} (pool : List α)
    (cantidad_tablas : Int) (nombre_loteria : String) (include_deck : Bool)
    (sampler : Nat → List α) (h : pool.length < 16) :
    generate_loteria_pdf pool cantidad_tablas nombre_loteria include_deck
        sampler =
      Except.error "Se necesitan al menos 16 imagenes." := by
  have h16 : pool.length < IMAGES_PER_CARD := by
    simp only [IMAGES_PER_CARD, GRID_SIZE]
    omega
  rw [generate_loteria_pdf, if_pos h16]

/-- Witness for C4: a pool of 15 images is rejected. -/
theorem generate_rejects_small_pool_witness :
    (List.range 15).length < 16 ∧
      generate_loteria_pdf (List.range 15) 3 "Loteria" true (fun _ => []) =
        Except.error "Se necesitan al menos 16 imagenes." :=
  ⟨by decide,
    generate_rejects_small_pool (List.range 15) 3 "Loteria" true
      (fun _ => []) (by decide)⟩

/-- C1 counterexample: `generate_loteria_pdf` does not reject a card
count of `0`.  With a 16-image pool and the deck enabled it returns a
document (one deck page) instead of failing with a configuration
error. -/
theorem generate_accepts_zero_count :
    generate_loteria_pdf (List.range 16) 0 "Loteria" true (fun _ => []) =
      Except.ok [Page.deck (List.range 16) 1] := by
  rfl

/-- C1 amended: the `count <= 0` configuration check lives in the CLI
entry point (`generar_loteria.py` `main`, lines 378-381), which rejects
it before loading any image; `generate_loteria_pdf` itself performs no
card-count validation — with `count <= 0` it samples nothing, renders
zero cards, and (deck enabled, pool of at least 16) still produces a
deck-only document. -/
theorem cli_rejects_nonpositive_count {α : Type} (cantidad_tablas : Int)
    (pool : List α) (nombre_loteria : String) (sampler : Nat → List α)
    (hc : cantidad_tablas ≤ 0) (hpool : 16 ≤ pool.length) :
    cli_validate_cantidad cantidad_tablas =
        Except.error "La cantidad de tablas debe ser mayor a 0" ∧
      generate_loteria_pdf pool cantidad_tablas nombre_loteria true sampler =
        Except.ok
          ((List.range (num_deck_pages pool.length)).map
            (fun page_num =>
              Page.deck (deck_page_images pool page_num) (page_num + 1))) := by
  constructor
  · rw [cli_validate_cantidad, if_pos hc]
  · have h0 : cantidad_tablas.toNat = 0 := by omega
    have := generate_ok_of_le_length pool cantidad_tablas nombre_loteria
      sampler hpool
    rw [h0] at this
    simpa using this

/-- Witness for the amended C1 at `count = 0` with a 16-image pool. -/
theorem cli_rejects_nonpositive_count_witness :
    ((0 : Int) ≤ 0 ∧ 16 ≤ (List.range 16).length) ∧
      (cli_validate_cantidad 0 =
          Except.error "La cantidad de tablas debe ser mayor a 0" ∧
        generate_loteria_pdf (List.range 16) 0 "Loteria" true
            (fun _ => []) =
          Except.ok
            ((List.range (num_deck_pages (List.range 16).length)).map
              (fun page_num =>
                Page.deck (deck_page_images (List.range 16) page_num)
                  (page_num + 1)))) :=
  ⟨⟨by decide, by decide⟩,
    cli_rejects_nonpositive_count 0 (List.range 16) "Loteria" (fun _ => [])
      (by decide) (by decide)⟩

/-- C9: with the deck enabled, the assembled page sequence is all deck
pages first, in pagination order (page numbers 1, 2, ...), followed by
all card pages in folio order 1..count, with no reordering or
interleaving. -/
theorem generate_page_order {α : Type} (pool : List α)
    (cantidad_tablas : Int) (nombre_loteria : String)
    (sampler : Nat → List α) (h : 16 ≤ pool.length) :
    generate_loteria_pdf pool cantidad_tablas nombre_loteria true sampler =
      Except.ok
        ((List.range (num_deck_pages pool.length)).map
            (fun page_num =>
              Page.deck (deck_page_images pool page_num) (page_num + 1)) ++
          (List.range' 1 cantidad_tablas.toNat).map
            (fun i => Page.card (sampler i) nombre_loteria i)) :=
  generate_ok_of_le_length pool cantidad_tablas nombre_loteria sampler h

/-- Witness for C9: a 16-image pool and two cards. -/
theorem generate_page_order_witness :
    16 ≤ (List.range 16).length ∧
      generate_loteria_pdf (List.range 16) 2 "Loteria" true (fun i => [i]) =
        Except.ok
          ((List.range (num_deck_pages (List.range 16).length)).map
              (fun page_num =>
                Page.deck (deck_page_images (List.range 16) page_num)
                  (page_num + 1)) ++
            (List.range' 1 (2 : Int).toNat).map
              (fun i => Page.card [i] "Loteria" i)) :=
  ⟨by decide,
    generate_page_order (List.range 16) 2 "Loteria" (fun i => [i])
      (by decide)⟩

/-- C5: deck pagination splits the pool into consecutive chunks of 16,
in order: the number of deck pages is `ceil(len/16) = (len+15)/16`;
page `k` (0-based) holds exactly pool elements `[16k, 16k+16)` clamped
at the end; and the concatenation of all pages reproduces the pool
exactly, with no element omitted or repeated.  `paginate` is a plain
function of the pool, hence deterministic. -/
theorem paginate_spec {α : Type} (pool : List α) :
    (paginate pool).length = (pool.length + 15) / 16 ∧
      (∀ k, k < (pool.length + 15) / 16 →
        (paginate pool)[k]? = some ((pool.drop (16 * k)).take 16)) ∧
      (paginate pool).flatten = pool := by
  refine ⟨by simp [paginate, num_deck_pages], fun k hk => ?_, ?_⟩
  · rw [paginate, List.getElem?_map, List.getElem?_range]
    · simp [deck_page_images_eq]
    · simpa [num_deck_pages] using hk
  · rw [paginate]
    have hfun : deck_page_images pool =
        fun k => (pool.drop (16 * k)).take 16 := by
      funext k
      exact deck_page_images_eq pool k
    rw [hfun, flatten_chunks_eq_take]
    apply List.take_of_length_le
    have h1 := Nat.div_add_mod (pool.length + 15) 16
    have h2 : (pool.length + 15) % 16 < 16 := Nat.mod_lt _ (by norm_num)
    unfold num_deck_pages
    omega

/-- Witness for C5: a 20-element pool paginates into 2 pages and page 1
holds elements 16..19; the flattened pages reproduce the pool. -/
theorem paginate_spec_witness :
    (1 < (20 + 15) / 16 ∧
        (paginate (List.range 20))[1]? =
          some (((List.range 20).drop 16).take 16)) ∧
      (paginate (List.range 20)).flatten = List.range 20 :=
  ⟨⟨by decide,
      by
        have h := (paginate_spec (List.range 20)).2.1 1
        simpa using h (by decide)⟩,
    (paginate_spec (List.range 20)).2.2⟩

theorem deck_placements_loop_length {α : Type} (l : List α) :
    ∀ idx : Nat,
      (deck_placements_loop idx l).length = min (16 - idx) l.length := by
  induction l with
  | nil => intro idx; simp [deck_placements_loop]
  | cons c rest ih =>
    intro idx
    by_cases h : 16 ≤ idx
    · simp only [deck_placements_loop, if_pos h, List.length_nil,
        List.length_cons]
      omega
    · simp only [deck_placements_loop, if_neg h, List.length_cons, ih]
      omega

theorem deck_placements_loop_getElem? {α : Type} (l : List α) :
    ∀ idx i : Nat, i < (deck_placements_loop idx l).length →
      (deck_placements_loop idx l)[i]? =
        (l[i]?).map
          (fun p => ((idx + i) / GRID_SIZE, (idx + i) % GRID_SIZE, p)) := by
  induction l with
  | nil => intro idx i hi; simp [deck_placements_loop] at hi
  | cons c rest ih =>
    intro idx i hi
    by_cases h : 16 ≤ idx
    · simp [deck_placements_loop, if_pos h] at hi
    · simp only [deck_placements_loop, if_neg h] at hi ⊢
      cases i with
      | zero => simp
      | succ j =>
        simp only [List.getElem?_cons_succ, List.length_cons] at hi ⊢
        have heq : idx + 1 + j = idx + (j + 1) := by omega
        rw [ih (idx + 1) j (by omega), heq]

theorem deck_placements_loop_take {α : Type} (l : List α) :
    ∀ idx : Nat,
      deck_placements_loop idx (l.take (16 - idx)) =
        deck_placements_loop idx l := by
  induction l with
  | nil => intro idx; simp
  | cons c rest ih =>
    intro idx
    by_cases h : 16 ≤ idx
    · have h0 : 16 - idx = 0 := by omega
      simp [h0, deck_placements_loop, if_pos h]
    · have h1 : 16 - idx = (16 - (idx + 1)) + 1 := by omega
      rw [h1, List.take_succ_cons]
      simp only [deck_placements_loop, if_neg h]
      rw [ih (idx + 1)]

/-- C10: `create_deck_page` renders only the first 16 entries of its
input list: there are `min(16, len)` placements; entry `i` occupies the
row-major cell `(i // 4, i % 4)`, which is always inside the 4x4 grid;
and any entries beyond index 15 are silently ignored (the placements of
a list and of its first 16 entries coincide) — the loop `break`s
instead of overflowing or raising. -/
theorem create_deck_page_truncates {α : Type} (image_paths : List α) :
    (create_deck_page_placements image_paths).length =
        min 16 image_paths.length ∧
      create_deck_page_placements image_paths =
        create_deck_page_placements (image_paths.take 16) ∧
      (∀ i, i < (create_deck_page_placements image_paths).length →
        (create_deck_page_placements image_paths)[i]? =
          (image_paths[i]?).map
            (fun p => (i / GRID_SIZE, i % GRID_SIZE, p))) ∧
      ∀ plc ∈ create_deck_page_placements image_paths,
        plc.1 < GRID_SIZE ∧ plc.2.1 < GRID_SIZE := by
  have hlen := deck_placements_loop_length image_paths 0
  refine ⟨by simpa using hlen, ?_, fun i hi => ?_, fun plc hplc => ?_⟩
  · unfold create_deck_page_placements
    rw [show (16 : Nat) = 16 - 0 from rfl, deck_placements_loop_take]
  · have h := deck_placements_loop_getElem? image_paths 0 i hi
    simpa using h
  · rw [List.mem_iff_getElem] at hplc
    obtain ⟨i, hi, hget⟩ := hplc
    unfold create_deck_page_placements at hi hget
    have h := deck_placements_loop_getElem? image_paths 0 i hi
    rw [List.getElem?_eq_getElem hi, hget] at h
    have hi16 : i < 16 := by
      rw [hlen] at hi
      omega
    have hp : image_paths[i]? = some image_paths[i] :=
      List.getElem?_eq_getElem (by
        rw [hlen] at hi
        omega)
    rw [hp] at h
    simp at h
    rw [h]
    refine ⟨?_, ?_⟩
    · show i / GRID_SIZE < GRID_SIZE
      simp only [GRID_SIZE]
      omega
    · show i % GRID_SIZE < GRID_SIZE
      simp only [GRID_SIZE]
      omega

/-- Witness for C10: with a 20-entry list only 16 placements are made;
entry 5 sits at row 1, column 1; entries 16..19 are ignored. -/
theorem create_deck_page_truncates_witness :
    5 < (create_deck_page_placements (List.range 20)).length ∧
      (create_deck_page_placements (List.range 20))[5]? =
        ((List.range 20)[5]?).map
          (fun p => (5 / GRID_SIZE, 5 % GRID_SIZE, p)) :=
  ⟨by decide,
    (create_deck_page_truncates (List.range 20)).2.2.1 5 (by decide)⟩

/-- C3: for a pool of at least 16 images and a requested count
`n >= 1`, the card loop of `generate_loteria_pdf` produces exactly `n`
cards with folio numbers `1..n` (strictly increasing, no gaps), the
`j`-th card (0-based) carrying folio `j + 1` and the 16 pairwise
distinct pool elements returned by `random.sample` for that folio
(`random_sample_spec` is the documented contract of the Python
standard-library call, which is not part of this repository). -/
theorem sample_cards_spec {α : Type} (pool : List α) (n : Int)
    (nombre_loteria : String) (sampler : Nat → List α)
    (hn : 1 ≤ n) (hpool : 16 ≤ pool.length)
    (hs : ∀ i, 1 ≤ i → i ≤ n.toNat → random_sample_spec pool (sampler i)) :
    ((sample_cards_loop n nombre_loteria sampler []).length : Int) = n ∧
      (sample_cards_loop n nombre_loteria sampler []).map card_folio =
        List.range' 1 n.toNat ∧
      ∀ j, j < n.toNat →
        (sample_cards_loop n nombre_loteria sampler [])[j]? =
            some (Page.card (sampler (j + 1)) nombre_loteria (j + 1)) ∧
          (sampler (j + 1)).length = 16 ∧ (sampler (j + 1)).Nodup ∧
          ∀ x ∈ sampler (j + 1), x ∈ pool := by
  rw [sample_cards_loop_eq, List.nil_append]
  refine ⟨?_, ?_, fun j hj => ?_⟩
  · rw [List.length_map, List.length_range']
    omega
  · rw [List.map_map]
    have hcomp :
        (card_folio ∘ fun i =>
          (Page.card (sampler i) nombre_loteria i : Page α)) = id := by
      funext i
      rfl
    rw [hcomp, List.map_id]
  · have hget : (List.range' 1 n.toNat)[j]? = some (1 + 1 * j) :=
      List.getElem?_range' 1 1 hj
    have hfolio : 1 + 1 * j = j + 1 := by omega
    rw [hfolio] at hget
    obtain ⟨hl, hnd, hmem⟩ := hs (j + 1) (by omega) (by omega)
    refine ⟨?_, hl, hnd, hmem⟩
    rw [List.getElem?_map, hget]
    rfl

/-- Witness for C3: a 16-image pool, two cards, and a sampler whose
draws satisfy the `random.sample` contract. -/
theorem sample_cards_spec_witness :
    ((1 : Int) ≤ 2 ∧ 16 ≤ (List.range 16).length) ∧
      (((sample_cards_loop 2 "Loteria" (fun _ => List.range 16) []).length :
            Int) = 2 ∧
        (sample_cards_loop 2 "Loteria" (fun _ => List.range 16) []).map
            card_folio = List.range' 1 (2 : Int).toNat ∧
        ∀ j, j < (2 : Int).toNat →
          (sample_cards_loop 2 "Loteria" (fun _ => List.range 16) [])[j]? =
              some (Page.card ((fun _ => List.range 16) (j + 1)) "Loteria"
                (j + 1)) ∧
            ((fun _ => List.range 16) (j + 1) : List Nat).length = 16 ∧
            ((fun _ => List.range 16) (j + 1) : List Nat).Nodup ∧
            ∀ x ∈ ((fun _ => List.range 16) (j + 1) : List Nat),
              x ∈ List.range 16) :=
  ⟨⟨by decide, by decide⟩,
    sample_cards_spec (List.range 16) 2 "Loteria" (fun _ => List.range 16)
      (by decide) (by decide)
      (fun i h1 h2 =>
        show random_sample_spec (List.range 16) (List.range 16) from
          ⟨by decide, by decide, fun x hx => hx⟩)⟩

/-- C8: for every input image with positive dimensions, aspect-fit
resizing scales to `new_width <= target_width` and
`new_height <= target_height` with at least one dimension hitting its
target exactly (the scale is exact in `ℚ`, so the `int(...)` rounding
recovers the target on the binding axis), and composes the result
centered at offsets `(target - new) // 2` onto a background of exactly
`target_width x target_height`. -/
theorem resize_fits (image : PILImage) (target_width target_height : Nat)
    (hw : 0 < image.width) (hh : 0 < image.height) :
    (resize_image_to_fit image target_width target_height).new_width ≤
        target_width ∧
      (resize_image_to_fit image target_width target_height).new_height ≤
        target_height ∧
      ((resize_image_to_fit image target_width target_height).new_width =
          target_width ∨
        (resize_image_to_fit image target_width target_height).new_height =
          target_height) ∧
      (resize_image_to_fit image target_width target_height).offset_x =
        Int.fdiv ((target_width : Int) -
          ((resize_image_to_fit image target_width target_height).new_width :
            Int)) 2 ∧
      (resize_image_to_fit image target_width target_height).offset_y =
        Int.fdiv ((target_height : Int) -
          ((resize_image_to_fit image target_width target_height).new_height :
            Int)) 2 ∧
      (resize_image_to_fit image target_width target_height).bg_width =
        target_width ∧
      (resize_image_to_fit image target_width target_height).bg_height =
        target_height := by
  have hW : (0 : ℚ) < (image.width : ℚ) := by exact_mod_cast hw
  have hH : (0 : ℚ) < (image.height : ℚ) := by exact_mod_cast hh
  have hww : (image.width : ℚ) *
      ((target_width : ℚ) / (image.width : ℚ)) = (target_width : ℚ) := by
    field_simp
  have hhh : (image.height : ℚ) *
      ((target_height : ℚ) / (image.height : ℚ)) = (target_height : ℚ) := by
    field_simp
  simp only [resize_image_to_fit]
  refine ⟨?_, ?_, ?_, trivial, trivial, trivial, trivial⟩
  · apply Int.toNat_le.mpr
    have h1 : (image.width : ℚ) *
        min ((target_width : ℚ) / (image.width : ℚ))
          ((target_height : ℚ) / (image.height : ℚ)) ≤ (target_width : ℚ) := by
      calc (image.width : ℚ) *
          min ((target_width : ℚ) / (image.width : ℚ))
            ((target_height : ℚ) / (image.height : ℚ)) ≤
          (image.width : ℚ) * ((target_width : ℚ) / (image.width : ℚ)) :=
            mul_le_mul_of_nonneg_left (min_le_left _ _) (le_of_lt hW)
        _ = (target_width : ℚ) := hww
    have h2 := Int.floor_le_floor h1
    rwa [Int.floor_natCast] at h2
  · apply Int.toNat_le.mpr
    have h1 : (image.height : ℚ) *
        min ((target_width : ℚ) / (image.width : ℚ))
          ((target_height : ℚ) / (image.height : ℚ)) ≤
          (target_height : ℚ) := by
      calc (image.height : ℚ) *
          min ((target_width : ℚ) / (image.width : ℚ))
            ((target_height : ℚ) / (image.height : ℚ)) ≤
          (image.height : ℚ) * ((target_height : ℚ) / (image.height : ℚ)) :=
            mul_le_mul_of_nonneg_left (min_le_right _ _) (le_of_lt hH)
        _ = (target_height : ℚ) := hhh
    have h2 := Int.floor_le_floor h1
    rwa [Int.floor_natCast] at h2
  · rcases le_total ((target_width : ℚ) / (image.width : ℚ))
      ((target_height : ℚ) / (image.height : ℚ)) with hc | hc
    · left
      rw [min_eq_left hc, hww, Int.floor_natCast, Int.toNat_natCast]
    · right
      rw [min_eq_right hc, hhh, Int.floor_natCast, Int.toNat_natCast]

/-- Witness for C8: a 200x100 image fit into a 551x693 cell scales to
551x275 and is centered. -/
theorem resize_fits_witness :
    (0 < (200 : Nat) ∧ 0 < (100 : Nat)) ∧
      ((resize_image_to_fit ⟨200, 100⟩ 551 693).new_width ≤ 551 ∧
        (resize_image_to_fit ⟨200, 100⟩ 551 693).new_height ≤ 693 ∧
        ((resize_image_to_fit ⟨200, 100⟩ 551 693).new_width = 551 ∨
          (resize_image_to_fit ⟨200, 100⟩ 551 693).new_height = 693) ∧
        (resize_image_to_fit ⟨200, 100⟩ 551 693).offset_x =
          Int.fdiv ((551 : Int) -
            ((resize_image_to_fit ⟨200, 100⟩ 551 693).new_width : Int)) 2 ∧
        (resize_image_to_fit ⟨200, 100⟩ 551 693).offset_y =
          Int.fdiv ((693 : Int) -
            ((resize_image_to_fit ⟨200, 100⟩ 551 693).new_height : Int)) 2 ∧
        (resize_image_to_fit ⟨200, 100⟩ 551 693).bg_width = 551 ∧
        (resize_image_to_fit ⟨200, 100⟩ 551 693).bg_height = 693) :=
  ⟨⟨by decide, by decide⟩,
    resize_fits ⟨200, 100⟩ 551 693 (by decide) (by decide)⟩

/-- Every word emitted by the splitter is non-empty and
whitespace-free, provided the running accumulator is whitespace-free. -/
theorem splitWordsAux_isWord (s : List Char) :
    ∀ acc : List Char, (∀ c ∈ acc, c.isWhitespace = false) →
      ∀ w ∈ splitWordsAux acc s, IsWord w := by
  induction s with
  | nil =>
    intro acc hacc w hw
    by_cases h : acc.isEmpty
    · simp [splitWordsAux, h] at hw
    · simp only [splitWordsAux, if_neg h, List.mem_singleton] at hw
      subst hw
      refine ⟨?_, fun c hc => hacc c (List.mem_reverse.mp hc)⟩
      simp only [ne_eq, List.reverse_eq_nil_iff]
      intro habs
      rw [habs] at h
      simp at h
  | cons c rest ih =>
    intro acc hacc w hw
    simp only [splitWordsAux] at hw
    by_cases hc : c.isWhitespace = true
    · rw [if_pos hc] at hw
      by_cases h : acc.isEmpty
      · rw [if_pos h] at hw
        exact ih [] (by simp) w hw
      · rw [if_neg h] at hw
        rcases List.mem_cons.mp hw with h1 | h1
        · subst h1
          refine ⟨?_, fun d hd => hacc d (List.mem_reverse.mp hd)⟩
          simp only [ne_eq, List.reverse_eq_nil_iff]
          intro habs
          rw [habs] at h
          simp at h
        · exact ih [] (by simp) w h1
    · rw [if_neg hc] at hw
      rw [Bool.not_eq_true] at hc
      refine ih (c :: acc) ?_ w hw
      intro d hd
      rcases List.mem_cons.mp hd with h1 | h1
      · rw [h1]
        exact hc
      · exact hacc d h1

/-- The splitter consumes a whitespace-free prefix by accumulating it. -/
theorem splitWordsAux_append (w : List Char) :
    ∀ (s acc : List Char), (∀ c ∈ w, c.isWhitespace = false) →
      splitWordsAux acc (w ++ s) = splitWordsAux (w.reverse ++ acc) s := by
  induction w with
  | nil => intro s acc h; simp
  | cons c w2 ih =>
    intro s acc h
    have hc : c.isWhitespace = false := h c (List.mem_cons_self c w2)
    simp only [List.cons_append, splitWordsAux, List.append_eq]
    rw [if_neg (by rw [hc]; exact Bool.false_ne_true)]
    rw [ih s (c :: acc) (fun d hd => h d (List.mem_cons_of_mem c hd))]
    congr 1
    simp [List.reverse_cons, List.append_assoc]

/-- Splitting the space-join of a list of words recovers the words. -/
theorem splitWords_joinWords :
    ∀ ws : List (List Char), (∀ w ∈ ws, IsWord w) →
      splitWords (joinWords ws) = ws := by
  intro ws
  induction ws with
  | nil => intro h; rfl
  | cons w rest ih =>
    intro h
    have hw : IsWord w := h w (List.mem_cons_self w rest)
    have hwrev : ¬ w.reverse.isEmpty = true := by
      simp only [List.isEmpty_iff, List.reverse_eq_nil_iff]
      exact hw.1
    cases rest with
    | nil =>
      show splitWordsAux [] (joinWords [w]) = [w]
      have hjoin : joinWords [w] = w := rfl
      rw [hjoin, show w = w ++ [] from (List.append_nil w).symm,
        splitWordsAux_append w [] [] hw.2]
      simp only [List.append_nil, splitWordsAux, if_neg hwrev,
        List.reverse_reverse]
    | cons w2 rest2 =>
      show splitWordsAux [] (joinWords (w :: w2 :: rest2)) = w :: w2 :: rest2
      have hjoin : joinWords (w :: w2 :: rest2) =
          w ++ ' ' :: joinWords (w2 :: rest2) := rfl
      rw [hjoin, splitWordsAux_append w (' ' :: joinWords (w2 :: rest2)) []
        hw.2]
      simp only [List.append_nil, splitWordsAux,
        if_pos (show (' ').isWhitespace = true from by decide),
        if_neg hwrev, List.reverse_reverse]
      congr 1
      exact ih (fun x hx => h x (List.mem_cons_of_mem w hx))

/-- The greedy word loop loses no word and invents none: the words of
its output lines are exactly `current_line ++ remaining words`. -/
theorem wrap_loop_flatten (measure : List Char → Int) (max_width : Int)
    (ws : List (List Char)) :
    ∀ current : List (List Char), (∀ w ∈ current, IsWord w) →
      (∀ w ∈ ws, IsWord w) →
      ((wrap_loop measure max_width ws current).map splitWords).flatten =
        current ++ ws := by
  induction ws with
  | nil =>
    intro current hcur _
    simp only [wrap_loop]
    by_cases h : current.isEmpty
    · rw [if_pos h]
      have hc0 : current = [] := List.isEmpty_iff.mp h
      simp [hc0]
    · rw [if_neg h]
      simp only [List.map_cons, List.map_nil, List.flatten_cons,
        List.flatten_nil, List.append_nil]
      rw [splitWords_joinWords current hcur]
  | cons word rest ih =>
    intro current hcur hws
    have hword : IsWord word := hws word (List.mem_cons_self _ _)
    have hrest : ∀ w ∈ rest, IsWord w :=
      fun w hw => hws w (List.mem_cons_of_mem _ hw)
    simp only [wrap_loop]
    by_cases h1 : measure (joinWords (current ++ [word])) ≤ max_width
    · rw [if_pos h1]
      rw [ih (current ++ [word]) ?_ hrest]
      · simp
      · intro w hw
        rcases List.mem_append.mp hw with h2 | h2
        · exact hcur w h2
        · rw [List.mem_singleton.mp h2]
          exact hword
    · rw [if_neg h1]
      have hsplit1 : splitWords word = [word] := by
        have h2 := splitWords_joinWords [word] ?_
        · simpa [joinWords] using h2
        · intro x hx
          rw [List.mem_singleton.mp hx]
          exact hword
      by_cases h2 : current.isEmpty
      · rw [if_pos h2]
        have hc0 : current = [] := List.isEmpty_iff.mp h2
        simp only [List.map_cons, List.flatten_cons]
        rw [ih [] (by simp) hrest, hsplit1, hc0]
        simp
      · rw [if_neg h2]
        simp only [List.map_cons, List.flatten_cons]
        rw [ih [word] ?_ hrest]
        · rw [splitWords_joinWords current hcur]
          simp
        · intro x hx
          rw [List.mem_singleton.mp hx]
          exact hword

/-- C6 counterexample: a non-empty, all-whitespace text that does not
fit in the width produces an EMPTY line list — `text.split()` yields no
words, so the loop emits nothing.  (With the realistic monotone measure
`10 px` per character, 54 spaces measure 540 px against the in-repo
`max_text_width` of 531 px.) -/
theorem wrap_text_whitespace_empty :
    List.replicate 54 ' ' ≠ ([] : List Char) ∧
      wrap_text (fun s => 10 * (s.length : Int))
        (List.replicate 54 ' ') 531 = [] := by
  constructor
  · decide
  · rfl

/-- C6 amended: for every input text, the word sequence of the returned
lines, in order, is exactly the word sequence of the input (every
original word exactly once, order preserved); and the output is
non-empty whenever the input contains at least one word.  (A non-empty
but all-whitespace input that exceeds `max_width` yields an empty
output, so non-emptiness of the text alone does not suffice.) -/
theorem wrap_text_preserves_words (measure : List Char → Int)
    (text : List Char) (max_width : Int) :
    ((wrap_text measure text max_width).map splitWords).flatten =
        splitWords text ∧
      (splitWords text ≠ [] → wrap_text measure text max_width ≠ []) := by
  have h1 : ((wrap_text measure text max_width).map splitWords).flatten =
      splitWords text := by
    unfold wrap_text
    by_cases h : measure text ≤ max_width
    · rw [if_pos h]
      simp
    · rw [if_neg h]
      have h2 := wrap_loop_flatten measure max_width (splitWords text) []
        (by simp) (splitWordsAux_isWord text [] (by simp))
      simpa using h2
  refine ⟨h1, fun hne habs => ?_⟩
  rw [habs] at h1
  simp at h1
  exact hne h1

/-- Witness for the amended C6: a two-word caption is preserved. -/
theorem wrap_text_preserves_words_witness :
    splitWords "hola mundo".data ≠ [] ∧
      ((wrap_text (fun s => 10 * (s.length : Int)) "hola mundo".data
            60).map splitWords).flatten = splitWords "hola mundo".data ∧
      wrap_text (fun s => 10 * (s.length : Int)) "hola mundo".data 60 ≠
        [] :=
  ⟨by decide,
    (wrap_text_preserves_words (fun s => 10 * (s.length : Int))
      "hola mundo".data 60).1,
    (wrap_text_preserves_words (fun s => 10 * (s.length : Int))
      "hola mundo".data 60).2 (by decide)⟩

/-- Loop invariant for C7: every emitted line either measures within
`max_width` or is one of the original words, alone on its line. -/
theorem wrap_loop_line_fits (measure : List Char → Int) (max_width : Int)
    (W0 : List (List Char)) (ws : List (List Char)) :
    ∀ current : List (List Char),
      (current ≠ [] →
        measure (joinWords current) ≤ max_width ∨
          ∃ w, current = [w] ∧ w ∈ W0) →
      (∀ w ∈ ws, w ∈ W0) →
      ∀ line ∈ wrap_loop measure max_width ws current,
        measure line ≤ max_width ∨ line ∈ W0 := by
  induction ws with
  | nil =>
    intro current hcur _ line hline
    simp only [wrap_loop] at hline
    by_cases h : current.isEmpty
    · rw [if_pos h] at hline
      simp at hline
    · rw [if_neg h] at hline
      rw [List.mem_singleton] at hline
      subst hline
      rcases hcur (by
        intro habs
        rw [habs] at h
        simp at h) with h1 | ⟨w, hw1, hw2⟩
      · exact Or.inl h1
      · right
        rw [hw1]
        simpa [joinWords] using hw2
  | cons word rest ih =>
    intro current hcur hws line hline
    have hword : word ∈ W0 := hws word (List.mem_cons_self _ _)
    have hrest : ∀ w ∈ rest, w ∈ W0 :=
      fun w hw => hws w (List.mem_cons_of_mem _ hw)
    simp only [wrap_loop] at hline
    by_cases h1 : measure (joinWords (current ++ [word])) ≤ max_width
    · rw [if_pos h1] at hline
      exact ih (current ++ [word]) (fun _ => Or.inl h1) hrest line hline
    · rw [if_neg h1] at hline
      by_cases h2 : current.isEmpty
      · rw [if_pos h2] at hline
        rcases List.mem_cons.mp hline with h3 | h3
        · rw [h3]
          exact Or.inr hword
        · exact ih [] (fun habs => absurd rfl habs) hrest line h3
      · rw [if_neg h2] at hline
        rcases List.mem_cons.mp hline with h3 | h3
        · rw [h3]
          rcases hcur (by
            intro habs
            rw [habs] at h2
            simp at h2) with h4 | ⟨w, hw1, hw2⟩
          · exact Or.inl h4
          · right
            rw [hw1]
            simpa [joinWords] using hw2
        · exact ih [word] (fun _ => Or.inr ⟨word, rfl, hword⟩) hrest line h3

/-- C7: every line returned by `wrap_text` measures within `max_width`,
except that a line may be a single original word (returned alone on its
own line, with no character-level splitting) whose own width exceeds
`max_width`. -/
theorem wrap_text_line_widths (measure : List Char → Int)
    (text : List Char) (max_width : Int) (line : List Char)
    (hline : line ∈ wrap_text measure text max_width) :
    measure line ≤ max_width ∨ line ∈ splitWords text := by
  unfold wrap_text at hline
  by_cases h : measure text ≤ max_width
  · rw [if_pos h] at hline
    rw [List.mem_singleton] at hline
    rw [hline]
    exact Or.inl h
  · rw [if_neg h] at hline
    exact wrap_loop_line_fits measure max_width (splitWords text)
      (splitWords text) [] (fun habs => absurd rfl habs)
      (fun w hw => hw) line hline

/-- Witness for C7 at a caption that fits on one line. -/
theorem wrap_text_line_widths_witness :
    "hola".data ∈ wrap_text (fun s => (s.length : Int)) "hola".data 10 ∧
      (("hola".data.length : Int) ≤ 10 ∨
        "hola".data ∈ splitWords "hola".data) :=
  ⟨by decide,
    wrap_text_line_widths (fun s => (s.length : Int)) "hola".data 10
      "hola".data (by decide)⟩

end Loteria
